import Mathlib

/-!
Verification of the document-to-vector ingestion and retrieval pipeline of
the local-knowledge-search repository.  The definitions below are a shallow
embedding of the TypeScript sources:

* `splitIntoWords`, `chunkText`, `validateChunks` — src/lib/mockServices.ts
  (the text-chunker portion);
* `truncateText`, `generateEmbedding`, `generateBatchEmbeddings`
  — src/lib/embeddingService.ts;
* `storeEmbeddings`, the vector-search option defaulting
  — src/lib/vectorStorageService.ts;
* `processDocument`, `searchFn` — src/lib/knowledgeSearchService.ts
  (the KnowledgeSearchService orchestrator);
* the `EmbeddingWorkerManager` pending-request table as a step relation.

JavaScript strings are modelled as Lean `String`s with character positions
counted in Unicode scalar values; timestamps (`Date.now()`, `toISOString()`)
are modelled as the constant 0 resp. the empty string, since no verified
property depends on wall-clock time.  Asynchronous collaborators are
modelled as explicit behaviour parameters returning `Except String α`
(a thrown JS exception becomes `Except.error` carrying its message).
-/

namespace KnowledgeSearch

/-! ### Chunker configuration and data model -/

/-- Modelled from the spec: `CHUNKING_CONFIG` lives in the repository's
`src/lib/types.ts`, which is not part of the provided sources; the spec (§4.1)
and the repository README fix its defaults to
`maxWordsPerChunk = 500`, `overlapWords = 50`, `minChunkWords = 50`. -/
structure ChunkingConfig where
  maxWordsPerChunk : Nat
  overlapWords : Nat
  minChunkWords : Nat
deriving Repr, DecidableEq

def CHUNKING_CONFIG : ChunkingConfig :=
  { maxWordsPerChunk := 500, overlapWords := 50, minChunkWords := 50 }

/-- Modelled from the spec: `generateId` lives in the repository's missing
`src/lib/utils.ts` and yields a fresh unique id per call.  It is modelled as a
deterministic function of a freshness counter supplied at each call site. -/
def generateId (n : Nat) : String := "id_" ++ toString n

/-- One entry of `splitIntoWords`: a word together with the character offset
of its first character (`match.index`). -/
structure WordPos where
  word : String
  position : Nat
deriving Repr, DecidableEq

instance : Inhabited WordPos := ⟨⟨"", 0⟩⟩

/-- `DocumentChunk` from `src/lib/types.ts` (fields as used throughout the
sources). -/
structure DocumentChunk where
  id : String
  documentId : String
  chunkIndex : Nat
  text : String
  wordCount : Nat
  startPosition : Nat
  endPosition : Nat
deriving Repr, DecidableEq

instance : Inhabited DocumentChunk :=
  ⟨{ id := "", documentId := "", chunkIndex := 0, text := "", wordCount := 0,
     startPosition := 0, endPosition := 0 }⟩

/-! ### `splitIntoWords` — the regex `/\b\w+\b/g`

The regex matches maximal runs of word characters (`[A-Za-z0-9_]`); the scan
below walks the character list once, carrying the start offset and the
reversed characters of the run in progress. -/

def isWordChar (c : Char) : Bool := c.isAlphanum || c = '_'

def splitWordsAux : List Char → Nat → Option (Nat × List Char) → List WordPos
  | [], _, none => []
  | [], _, some (s, acc) => [⟨String.mk acc.reverse, s⟩]
  | c :: cs, i, none =>
    if isWordChar c then splitWordsAux cs (i + 1) (some (i, [c]))
    else splitWordsAux cs (i + 1) none
  | c :: cs, i, some (s, acc) =>
    if isWordChar c then splitWordsAux cs (i + 1) (some (s, c :: acc))
    else ⟨String.mk acc.reverse, s⟩ :: splitWordsAux cs (i + 1) none

def splitIntoWords (text : String) : List WordPos :=
  splitWordsAux text.data 0 none

/-- `getCharacterPosition` from the chunker: for an in-range index, the word's
start offset; past the end, one past the final word's last character. -/
def getCharacterPosition (words : List WordPos) (wordIndex : Nat) : Nat :=
  if wordIndex ≥ words.length then
    match words.getLast? with
    | some w => w.position + w.word.length
    | none => 0
  else ((words.getD wordIndex default).position)

/-- JavaScript `String.prototype.trim` on a character list. -/
def trimChars (l : List Char) : List Char :=
  ((l.dropWhile Char.isWhitespace).reverse.dropWhile Char.isWhitespace).reverse

/-- JavaScript `text.trim()`. -/
def jsTrim (s : String) : String := String.mk (trimChars s.data)

/-- `extractTextBetweenPositions`: `text.substring(startPos, endPos).trim()`. -/
def extractTextBetweenPositions (text : String) (startPos endPos : Nat) : String :=
  String.mk (trimChars ((text.data.drop startPos).take (endPos - startPos)))

/-! ### `chunkText`

The `while` loop of the source is rendered with an explicit fuel argument;
`chunkText` supplies `words.length` fuel, which always suffices because every
iteration advances `currentWordIndex` by at least one word. -/

def chunkLoop (text documentId : String) (words : List WordPos) :
    Nat → Nat → Nat → List DocumentChunk
  | 0, _, _ => []
  | fuel + 1, currentWordIndex, chunkIndex =>
    if currentWordIndex < words.length then
      let endWordIndex := min (currentWordIndex + CHUNKING_CONFIG.maxWordsPerChunk) words.length
      let startPosition := getCharacterPosition words currentWordIndex
      let endPosition := getCharacterPosition words endWordIndex
      let chunk : DocumentChunk :=
        { id := generateId chunkIndex
          documentId := documentId
          chunkIndex := chunkIndex
          text := extractTextBetweenPositions text startPosition endPosition
          wordCount := endWordIndex - currentWordIndex
          startPosition := startPosition
          endPosition := endPosition }
      if endWordIndex ≥ words.length then [chunk]
      else
        chunk :: chunkLoop text documentId words fuel
          (currentWordIndex +
            max (CHUNKING_CONFIG.maxWordsPerChunk - CHUNKING_CONFIG.overlapWords) 1)
          (chunkIndex + 1)
    else []

def chunkText (text documentId : String) : List DocumentChunk :=
  let words := splitIntoWords text
  if words.length ≤ CHUNKING_CONFIG.minChunkWords then
    [{ id := generateId 0
       documentId := documentId
       chunkIndex := 0
       text := jsTrim text
       wordCount := words.length
       startPosition := 0
       endPosition := text.length }]
  else
    chunkLoop text documentId words words.length 0 0

/-! ### `validateChunks` (post-hoc chunk validator) -/

structure ValidationResult where
  isValid : Bool
  errors : List String
deriving Repr, DecidableEq

def validateChunks (chunks : List DocumentChunk) : ValidationResult :=
  let emptyChunks := chunks.filter (fun c => jsTrim c.text = "")
  let e1 := if emptyChunks.length > 0 then
      ["Found " ++ toString emptyChunks.length ++ " empty chunks"] else []
  let tinyChunks := chunks.dropLast.filter
      (fun c => c.wordCount < CHUNKING_CONFIG.minChunkWords)
  let e2 := if tinyChunks.length > 0 then
      ["Found " ++ toString tinyChunks.length ++ " chunks smaller than " ++
        toString CHUNKING_CONFIG.minChunkWords ++ " words"] else []
  let e3 := chunks.enum.filterMap (fun p =>
      if p.2.chunkIndex ≠ p.1 then
        some ("Chunk index mismatch at position " ++ toString p.1 ++ ": expected " ++
          toString p.1 ++ ", got " ++ toString p.2.chunkIndex)
      else none)
  let e4 := (List.range (chunks.length - 1)).filterMap (fun i =>
      let current := chunks.getD i default
      let next := chunks.getD (i + 1) default
      if current.endPosition > next.startPosition then
        let overlapSize := current.endPosition - next.startPosition
        if 2 * overlapSize > current.text.length then
          some ("Excessive overlap between chunks " ++ toString i ++ " and " ++
            toString (i + 1) ++ ": " ++ toString overlapSize ++ " characters")
        else none
      else none)
  let errors := e1 ++ e2 ++ e3 ++ e4
  { isValid := errors.length == 0, errors := errors }

/-! ### Embedding service (`src/lib/embeddingService.ts`)

The Transformers.js pipeline is the embedding-backend collaborator: it is a
behaviour parameter `pf : String → Except String (List ℚ)` mapping input text
to a vector or a thrown error. -/

structure EmbeddingConfig where
  model : String
  maxTokens : Nat
  dimensions : Nat
  batchSize : Nat
deriving Repr, DecidableEq

def EMBEDDING_CONFIG : EmbeddingConfig :=
  { model := "Xenova/all-MiniLM-L6-v2", maxTokens := 384, dimensions := 384, batchSize := 5 }

structure EmbeddingResult where
  chunkId : String
  embedding : List ℚ
  tokenCount : Nat
  processingTimeMs : Nat
deriving Repr, DecidableEq

structure ChunkError where
  chunkId : String
  error : String
deriving Repr, DecidableEq

structure BatchEmbeddingResult where
  results : List EmbeddingResult
  totalProcessingTimeMs : Nat
  successCount : Nat
  errors : List ChunkError
deriving Repr, DecidableEq

/-- JavaScript template interpolation of a thrown `Error` value
(`` `... ${error}` `` prints as `Error: <message>`). -/
def jsErrorString (msg : String) : String := "Error: " ++ msg

/-- Index of the last `' '` in a character list (`lastIndexOf(' ')`),
`none` when there is no space. -/
def lastSpaceIndex (l : List Char) : Option Nat :=
  (l.enum.filterMap (fun p => if p.2 = ' ' then some p.1 else none)).getLast?

def truncateText (text : String) : String :=
  let maxChars := EMBEDDING_CONFIG.maxTokens * 4
  if text.length ≤ maxChars then text
  else
    let truncated := text.data.take maxChars
    match lastSpaceIndex truncated with
    | some i => if i > 0 then String.mk (truncated.take i) else String.mk truncated
    | none => String.mk truncated

/-- `Math.ceil(text.length / 4)`. -/
def estimateTokenCount (text : String) : Nat := (text.length + 3) / 4

def generateEmbedding (pf : String → Except String (List ℚ))
    (text chunkId : String) : Except String EmbeddingResult :=
  let truncatedText := truncateText text
  match pf truncatedText with
  | .ok data =>
    .ok { chunkId := chunkId, embedding := data,
          tokenCount := estimateTokenCount truncatedText, processingTimeMs := 0 }
  | .error e => .error ("Embedding generation failed: " ++ jsErrorString e)

def embedOutcome (pf : String → Except String (List ℚ)) (c : DocumentChunk) :
    Except String EmbeddingResult :=
  generateEmbedding pf c.text c.id

/-- One group of the batch loop: the concurrent `Promise.all` preserves
submission order, after which results and errors are pushed in that order. -/
def processGroup (pf : String → Except String (List ℚ)) (group : List DocumentChunk)
    (acc : List EmbeddingResult × List ChunkError) :
    List EmbeddingResult × List ChunkError :=
  group.foldl (fun acc c =>
    match embedOutcome pf c with
    | .ok r => (acc.1 ++ [r], acc.2)
    | .error e => (acc.1, acc.2 ++ [⟨c.id, e⟩])) acc

/-- The `for (let i = 0; i < chunks.length; i += batchSize)` loop, rendered
with fuel; `generateBatchEmbeddings` supplies `chunks.length` fuel, which
always suffices since each iteration consumes a nonempty group. -/
def batchLoop (pf : String → Except String (List ℚ)) :
    Nat → List DocumentChunk → List EmbeddingResult × List ChunkError
  | 0, _ => ([], [])
  | _, [] => ([], [])
  | fuel + 1, cs@(_ :: _) =>
    let acc := processGroup pf (cs.take EMBEDDING_CONFIG.batchSize) ([], [])
    let rest := batchLoop pf fuel (cs.drop EMBEDDING_CONFIG.batchSize)
    (acc.1 ++ rest.1, acc.2 ++ rest.2)

def generateBatchEmbeddings (pf : String → Except String (List ℚ))
    (chunks : List DocumentChunk) : BatchEmbeddingResult :=
  let p := batchLoop pf chunks.length chunks
  { results := p.1, totalProcessingTimeMs := 0, successCount := p.1.length, errors := p.2 }

/-! ### Document metadata and extraction results (`src/lib/types.ts` shapes
as used by `textExtractor.ts` and the orchestrator) -/

inductive FileType where
  | pdf
  | docx
  | txt
  | md
deriving Repr, DecidableEq

structure DocumentMetadata where
  id : String
  filename : String
  fileSize : Nat
  fileType : FileType
  uploadedAt : Nat
  lastIndexed : Nat
  chunkCount : Nat
  errorMessage : Option String
  extractedText : Option String
deriving Repr, DecidableEq

structure ProcessingResult where
  success : Bool
  metadata : DocumentMetadata
  chunks : List DocumentChunk
  error : Option String
deriving Repr, DecidableEq

/-! ### Vector storage service (`src/lib/vectorStorageService.ts`)

The LanceDB table is the vector-engine collaborator; its bulk insert is a
behaviour parameter `add : List VectorRecord → Except String Unit`. -/

structure RecordMetadata where
  documentFilename : String
  documentType : FileType
  wordCount : Nat
  startPosition : Nat
  endPosition : Nat
  createdAt : String
deriving Repr, DecidableEq

structure VectorRecord where
  id : String
  documentId : String
  chunkId : String
  chunkIndex : Nat
  text : String
  vector : List ℚ
  metadata : RecordMetadata
deriving Repr, DecidableEq

/-- The `embeddingMap` lookup:
`new Map(embeddings.map(emb => [emb.chunkId, emb.embedding]))` — for
duplicate chunk ids the map keeps the last entry. -/
def embeddingMapGet (embeddings : List EmbeddingResult) (cid : String) :
    Option (List ℚ) :=
  ((embeddings.filter (fun e => e.chunkId = cid)).getLast?).map (fun e => e.embedding)

def buildVectorRecords (chunks : List DocumentChunk) (embeddings : List EmbeddingResult)
    (documentMetadata : DocumentMetadata) : List VectorRecord :=
  ((chunks.filter (fun c => (embeddingMapGet embeddings c.id).isSome)).enum).map
    (fun p =>
      let chunk := p.2
      { id := generateId p.1
        documentId := chunk.documentId
        chunkId := chunk.id
        chunkIndex := chunk.chunkIndex
        text := chunk.text
        vector := (embeddingMapGet embeddings chunk.id).getD []
        metadata := { documentFilename := documentMetadata.filename
                      documentType := documentMetadata.fileType
                      wordCount := chunk.wordCount
                      startPosition := chunk.startPosition
                      endPosition := chunk.endPosition
                      createdAt := "" } })

structure StoreOutput where
  result : Except String Unit
  records : List VectorRecord
  addInvoked : Bool

def storeEmbeddings (add : List VectorRecord → Except String Unit)
    (chunks : List DocumentChunk) (embeddings : List EmbeddingResult)
    (documentMetadata : DocumentMetadata) : StoreOutput :=
  let vectorRecords := buildVectorRecords chunks embeddings documentMetadata
  if vectorRecords.length = 0 then
    { result := .error ("Embedding storage failed: " ++
        jsErrorString "No valid embeddings to store")
      records := vectorRecords
      addInvoked := false }
  else
    match add vectorRecords with
    | .ok _ => { result := .ok (), records := vectorRecords, addInvoked := true }
    | .error e =>
      { result := .error ("Embedding storage failed: " ++ jsErrorString e)
        records := vectorRecords
        addInvoked := true }

/-- `search` option destructuring defaults of `VectorStorageService.search`:
`limit = 10` and `minScore = 0.0` apply only when the field is absent. -/
def vectorStoreEffLimit (o : Option Int) : Int := o.getD 10

def vectorStoreEffMinScore (o : Option ℚ) : ℚ := o.getD 0

structure SearchResult where
  chunkId : String
  documentId : String
  documentFilename : String
  text : String
  score : ℚ
  chunkIndex : Nat
  metadata : Option RecordMetadata
deriving Repr, DecidableEq

/-! ### Snippet and relevance enrichment (`KnowledgeSearchService` private
helpers) -/

def toLowerStr (s : String) : String := s.map Char.toLower

/-- JavaScript `text.split(/\s+/)`: splits on maximal whitespace runs,
with an empty leading (resp. trailing) element when the string starts
(resp. ends) with whitespace, and `[""]` for the empty string.  The second
argument tracks whether the scan is inside a whitespace run; the third is
the reversed current segment. -/
def splitWsAux : List Char → Bool → List Char → List String
  | [], _, acc => [String.mk acc.reverse]
  | c :: cs, false, acc =>
    if c.isWhitespace then String.mk acc.reverse :: splitWsAux cs true []
    else splitWsAux cs false (c :: acc)
  | c :: cs, true, acc =>
    if c.isWhitespace then splitWsAux cs true acc
    else splitWsAux cs false (c :: acc)

def splitWsJS (s : String) : List String := splitWsAux s.data false []

/-- `l` contains `sub` as a contiguous sublist (JavaScript
`String.prototype.includes` on character lists). -/
def containsSub : List Char → List Char → Bool
  | [], sub => sub.isEmpty
  | l@(_ :: ls), sub => sub.isPrefixOf l || containsSub ls sub

def strIncludes (s sub : String) : Bool := containsSub s.data sub.data

def generateSnippet (text query : String) : String :=
  let words := splitWsJS text
  let queryWords := splitWsJS (toLowerStr query)
  let best := (List.range (words.length - 20)).foldl
    (fun (b : Nat × Nat) i =>
      let window := toLowerStr (String.intercalate " " ((words.drop i).take 20))
      let score := queryWords.foldl
        (fun acc q => acc + (if strIncludes window q then 1 else 0)) 0
      if score > b.2 then (i, score) else b) (0, 0)
  let bestStart := best.1
  let snippetWords := (words.drop bestStart).take 25
  let snippet0 := String.intercalate " " snippetWords
  let snippet1 :=
    if snippet0.length > 150 then String.mk (snippet0.data.take 150) ++ "..."
    else snippet0
  if bestStart > 0 then "..." ++ snippet1 else snippet1

def generateRelevanceReason (score : ℚ) : String :=
  if score ≥ 0.8 then "Very high relevance"
  else if score ≥ 0.7 then "High relevance"
  else if score ≥ 0.6 then "Good relevance"
  else if score ≥ 0.5 then "Moderate relevance"
  else "Low relevance"

/-- `getFileTypeFromFile`: dispatch on the lowercased filename extension. -/
def getFileTypeFromFile (name : String) : FileType :=
  match ((name.splitOn ".").getLast?).map toLowerStr with
  | some "pdf" => .pdf
  | some "docx" => .docx
  | some "md" => .md
  | some "markdown" => .md
  | _ => .txt

/-! ### Orchestrator (`KnowledgeSearchService`)

The collaborators are behaviour parameters gathered in an environment
record; an `Except.error` models a thrown exception.  The outputs carry,
besides the returned (or thrown) value, which pipeline steps were invoked. -/

structure CompleteProcessingResult where
  metadata : DocumentMetadata
  chunks : List DocumentChunk
  embeddings : List EmbeddingResult
  success : Bool
  error : Option String
  processingTimeMs : Nat
deriving Repr, DecidableEq

structure ProcEnv where
  init : Except String Unit
  extract : Except String ProcessingResult
  embedBatch : Except String BatchEmbeddingResult
  store : Except String Unit

structure ProcOutput where
  result : Except String CompleteProcessingResult
  embedInvoked : Bool
  storeInvoked : Bool

/-- The metadata built in the catch block of `processDocument`
(`error_${Date.now()}` with the clock modelled as 0). -/
def errorCaseMetadata (fileName : String) (fileSize : Nat) (msg : String) :
    DocumentMetadata :=
  { id := "error_0"
    filename := fileName
    fileSize := fileSize
    fileType := getFileTypeFromFile fileName
    uploadedAt := 0
    lastIndexed := 0
    chunkCount := 0
    errorMessage := some msg
    extractedText := none }

/-- The `CompleteProcessingResult` returned by the catch block of
`processDocument`. -/
def catchResult (fileName : String) (fileSize : Nat) (msg : String) :
    CompleteProcessingResult :=
  { metadata := errorCaseMetadata fileName fileSize msg
    chunks := []
    embeddings := []
    success := false
    error := some msg
    processingTimeMs := 0 }

def processDocument (fileName : String) (fileSize : Nat) (env : ProcEnv) : ProcOutput :=
  match env.init with
  | .error e =>
    { result := .error ("Knowledge search service initialization failed: " ++
        jsErrorString e)
      embedInvoked := false
      storeInvoked := false }
  | .ok _ =>
    match env.extract with
    | .error e =>
      { result := .ok (catchResult fileName fileSize e)
        embedInvoked := false
        storeInvoked := false }
    | .ok extractionResult =>
      if extractionResult.success then
        match env.embedBatch with
        | .error e =>
          { result := .ok (catchResult fileName fileSize e)
            embedInvoked := true
            storeInvoked := false }
        | .ok embeddingResult =>
          if embeddingResult.results.length > 0 then
            match env.store with
            | .error e =>
              { result := .ok (catchResult fileName fileSize e)
                embedInvoked := true
                storeInvoked := true }
            | .ok _ =>
              { result := .ok
                  { metadata := extractionResult.metadata
                    chunks := extractionResult.chunks
                    embeddings := embeddingResult.results
                    success := true
                    error := none
                    processingTimeMs := 0 }
                embedInvoked := true
                storeInvoked := true }
          else
            { result := .ok
                { metadata := extractionResult.metadata
                  chunks := extractionResult.chunks
                  embeddings := embeddingResult.results
                  success := true
                  error := none
                  processingTimeMs := 0 }
              embedInvoked := true
              storeInvoked := false }
      else
        { result := .ok
            { metadata := extractionResult.metadata
              chunks := []
              embeddings := []
              success := false
              error := extractionResult.error
              processingTimeMs := 0 }
          embedInvoked := false
          storeInvoked := false }

/-- Search options as accepted by `KnowledgeSearchService.search`
(`SearchOptions` with every field optional). -/
structure SearchOptions where
  limit : Option Int
  minScore : Option ℚ
  documentIds : Option (List String)
  includeMetadata : Option Bool
deriving Repr, DecidableEq

def emptySearchOptions : SearchOptions :=
  { limit := none, minScore := none, documentIds := none, includeMetadata := none }

/-- The fully-defaulted options the orchestrator hands to
`vectorStorageService.search`. -/
structure StoreCallOptions where
  limit : Int
  minScore : ℚ
  documentIds : Option (List String)
  includeMetadata : Bool
deriving Repr, DecidableEq

/-- JavaScript `v || dflt` for an optional number: the default applies when
the field is absent or its value is `0` (falsy). -/
def jsOrInt (v : Option Int) (dflt : Int) : Int :=
  match v with
  | none => dflt
  | some x => if x = 0 then dflt else x

def jsOrRat (v : Option ℚ) (dflt : ℚ) : ℚ :=
  match v with
  | none => dflt
  | some x => if x = 0 then dflt else x

/-- The option shaping in `KnowledgeSearchService.search`:
`limit: options?.limit || 10`, `minScore: options?.minScore || 0.3`,
`documentIds: options?.documentIds`,
`includeMetadata: options?.includeMetadata !== false`. -/
def orchestratorStoreOptions (options : SearchOptions) : StoreCallOptions :=
  { limit := jsOrInt options.limit 10
    minScore := jsOrRat options.minScore 0.3
    documentIds := options.documentIds
    includeMetadata := options.includeMetadata != some false }

structure EnhancedSearchResult extends SearchResult where
  relevanceReason : Option String
  snippet : Option String
deriving Repr, DecidableEq

structure SearchEnv where
  init : Except String Unit
  embedQuery : Except String EmbeddingResult
  storeSearch : List ℚ → StoreCallOptions → Except String (List SearchResult)

structure SearchOutput where
  result : Except String (List EnhancedSearchResult)
  embedInvoked : Bool
  storeSearchInvoked : Bool
  storeCalledWith : Option StoreCallOptions

def searchFn (env : SearchEnv) (query : String) (options : SearchOptions) :
    SearchOutput :=
  match env.init with
  | .error e =>
    { result := .error ("Knowledge search service initialization failed: " ++
        jsErrorString e)
      embedInvoked := false
      storeSearchInvoked := false
      storeCalledWith := none }
  | .ok _ =>
    if jsTrim query = "" then
      { result := .ok []
        embedInvoked := false
        storeSearchInvoked := false
        storeCalledWith := none }
    else
      match env.embedQuery with
      | .error e =>
        { result := .error ("Search failed: " ++ jsErrorString e)
          embedInvoked := true
          storeSearchInvoked := false
          storeCalledWith := none }
      | .ok queryEmbedding =>
        let callOptions := orchestratorStoreOptions options
        match env.storeSearch queryEmbedding.embedding callOptions with
        | .error e =>
          { result := .error ("Search failed: " ++ jsErrorString e)
            embedInvoked := true
            storeSearchInvoked := true
            storeCalledWith := some callOptions }
        | .ok searchResults =>
          { result := .ok (searchResults.map (fun r =>
              { toSearchResult := r
                snippet := some (generateSnippet r.text query)
                relevanceReason := some (generateRelevanceReason r.score) }))
            embedInvoked := true
            storeSearchInvoked := true
            storeCalledWith := some callOptions }

/-! ### `EmbeddingWorkerManager` pending-request table

The manager is modelled as a state machine: the state holds the correlation
counter `messageId` and the keys of the pending-request table; a step takes
an event (an outgoing request, a timeout firing, a worker-level error,
termination, or an incoming response) to the next state plus the list of
promise settlements it produces. -/

structure WorkerResponseMsg where
  rtype : String
  id : Option Nat
  payloadError : String
deriving Repr, DecidableEq

inductive WMOutcome where
  | resolved (id : Nat) (rtype : String)
  | rejected (id : Nat) (error : String)
deriving Repr, DecidableEq

inductive WMEvent where
  | send
  | timeoutFire (id : Nat)
  | workerError
  | response (msg : WorkerResponseMsg)
  | terminate
deriving Repr, DecidableEq

structure WMState where
  messageId : Nat
  pending : List Nat
deriving Repr, DecidableEq

def initialWMState : WMState := { messageId := 0, pending := [] }

def wmStep (s : WMState) : WMEvent → WMState × List WMOutcome
  | .send =>
    let mid := s.messageId + 1
    ({ messageId := mid, pending := mid :: s.pending }, [])
  | .timeoutFire id =>
    if id ∈ s.pending then
      ({ messageId := s.messageId, pending := s.pending.erase id },
        [.rejected id "Worker request timed out"])
    else (s, [])
  | .workerError =>
    ({ messageId := s.messageId, pending := [] },
      s.pending.map (fun id => .rejected id "Worker error"))
  | .terminate =>
    ({ messageId := s.messageId, pending := [] },
      s.pending.map (fun id => .rejected id "Worker terminated"))
  | .response msg =>
    if msg.rtype = "PROGRESS" then (s, [])
    else if msg.rtype = "STATUS" ∧ msg.id = none then (s, [])
    else
      match msg.id with
      | none => (s, [])
      | some 0 => (s, [])
      | some mid =>
        if mid ∈ s.pending then
          ({ messageId := s.messageId, pending := s.pending.erase mid },
            [if strIncludes msg.rtype "ERROR" then .rejected mid msg.payloadError
             else .resolved mid msg.rtype])
        else (s, [])

inductive WMReachable : WMState → Prop where
  | start : WMReachable initialWMState
  | step (s : WMState) (e : WMEvent) : WMReachable s → WMReachable (wmStep s e).1

/-! ### Concrete inputs used by counterexamples and witnesses -/

/-- An `Except` is a returned value rather than a thrown exception. -/
def isOk {α : Type} (x : Except String α) : Bool :=
  match x with
  | .ok _ => true
  | .error _ => false

/-- The `success` flag of a `processDocument` return, `none` when it threw. -/
def resultSuccess (x : Except String CompleteProcessingResult) : Option Bool :=
  match x with
  | .ok r => some r.success
  | .error _ => none

/-- A 1,200-word text (each word is `ab`, followed by a space). -/
def bigChars : List Char := (List.replicate 1200 (['a', 'b'] ++ [' '])).flatten

def bigText : String := String.mk bigChars

/-- A 501-word text: 450 one-letter words, then 50 twenty-letter words,
then a final one-letter word.  The second chunk starts at word 450, so the
chunk-0/chunk-1 character overlap spans the 50 long words. -/
def overlapChars : List Char :=
  (List.replicate 450 (['a'] ++ [' '])).flatten ++
    ((List.replicate 50 (List.replicate 20 'b' ++ [' '])).flatten ++ ['c'])

def overlapText : String := String.mk overlapChars

/-- A two-chunk list satisfying every `validateChunks` check (overlap 20,
chunk-0 text length 100). -/
def twoChunks : List DocumentChunk :=
  [{ id := "a", documentId := "d", chunkIndex := 0,
     text := String.mk (List.replicate 100 'x'), wordCount := 60,
     startPosition := 0, endPosition := 100 },
   { id := "b", documentId := "d", chunkIndex := 1,
     text := String.mk (List.replicate 100 'y'), wordCount := 60,
     startPosition := 80, endPosition := 180 }]

def sampleMetadata : DocumentMetadata :=
  { id := "doc1", filename := "f.txt", fileSize := 3, fileType := .txt,
    uploadedAt := 0, lastIndexed := 0, chunkCount := 1,
    errorMessage := none, extractedText := none }

def sampleChunk (cid : String) (text : String) : DocumentChunk :=
  { id := cid, documentId := "doc1", chunkIndex := 0, text := text,
    wordCount := 1, startPosition := 0, endPosition := text.length }

/-- A backend that succeeds on the text `"good"` and fails on everything
else. -/
def samplePipeline : String → Except String (List ℚ) :=
  fun t => if t = "good" then .ok [1, 0] else .error "inference failed"

/-- Environment for the C1 counterexample: extraction succeeds with one
chunk, batch embedding returns zero usable vectors. -/
def envZeroVectors : ProcEnv :=
  { init := .ok ()
    extract := .ok { success := true, metadata := sampleMetadata,
                     chunks := [sampleChunk "c1" "bad"], error := none }
    embedBatch := .ok { results := [], totalProcessingTimeMs := 0,
                        successCount := 0, errors := [⟨"c1", "boom"⟩] }
    store := .ok () }

/-- Environment for the C2 counterexample: initialization succeeds but the
query embedding throws. -/
def envEmbedThrows : SearchEnv :=
  { init := .ok ()
    embedQuery := .error "inference failed"
    storeSearch := fun _ _ => .ok [] }

/-- Environment where every search collaborator succeeds. -/
def envSearchOk : SearchEnv :=
  { init := .ok ()
    embedQuery := .ok { chunkId := "query_0", embedding := [1, 0],
                        tokenCount := 1, processingTimeMs := 0 }
    storeSearch := fun _ _ => .ok [] }

/-- Options whose `limit` and `minScore` are explicitly `0` (falsy in JS). -/
def zeroOptions : SearchOptions :=
  { limit := some 0, minScore := some 0, documentIds := none, includeMetadata := none }

/-- Chunks for the batch-embedding witness: `samplePipeline` succeeds on the
first and fails on the second. -/
def c3chunks : List DocumentChunk :=
  [sampleChunk "c1" "good", sampleChunk "c2" "bad"]

/-!
## Theorems
-/

/-! ### Chunker lemmas -/

theorem trimChars_eq_nil {l : List Char} (h : ∀ c ∈ l, c.isWhitespace) :
    trimChars l = [] := by
  unfold trimChars
  rw [List.dropWhile_eq_nil_iff.mpr h]
  simp

/-- Claim C5: for every text whose word count is at most `minChunkWords`
(including empty or whitespace-only text, whose chunk text is empty) and every
documentId, `chunkText` returns exactly one chunk with index 0 spanning the
whole text, whose `wordCount` equals the total word count. -/
theorem C5_chunkText_short (text documentId : String)
    (h : (splitIntoWords text).length ≤ CHUNKING_CONFIG.minChunkWords) :
    chunkText text documentId =
      [{ id := generateId 0, documentId := documentId, chunkIndex := 0,
         text := jsTrim text, wordCount := (splitIntoWords text).length,
         startPosition := 0, endPosition := text.length }] ∧
    ((∀ c ∈ text.data, c.isWhitespace) →
      ∀ ch ∈ chunkText text documentId, ch.text = "") := by
  have h1 : chunkText text documentId =
      [{ id := generateId 0, documentId := documentId, chunkIndex := 0,
         text := jsTrim text, wordCount := (splitIntoWords text).length,
         startPosition := 0, endPosition := text.length }] := by
    unfold chunkText
    simp [h]
  refine ⟨h1, ?_⟩
  intro hws ch hch
  rw [h1] at hch
  simp at hch
  rw [hch]
  show jsTrim text = ""
  unfold jsTrim
  rw [trimChars_eq_nil hws]

theorem C5_witness :
    chunkText "hi there" "doc" =
      [{ id := generateId 0, documentId := "doc", chunkIndex := 0,
         text := jsTrim "hi there", wordCount := (splitIntoWords "hi there").length,
         startPosition := 0, endPosition := ("hi there" : String).length }] :=
  (C5_chunkText_short "hi there" "doc" (by decide)).1

/-! ### Orchestrator: zero usable vectors (C1) -/

/-- Claim C1 counterexample: with extraction succeeding and batch embedding
returning zero usable vectors, `processDocument` skips storage but marks the
returned result successful (`success = true`), contradicting the claim that
the result is marked failed. -/
theorem C1_counterexample :
    (processDocument "f.txt" 3 envZeroVectors).storeInvoked = false ∧
    resultSuccess (processDocument "f.txt" 3 envZeroVectors).result = some true := by
  exact ⟨rfl, rfl⟩

/-- Claim C1 (amended): for every `processDocument` call in which extraction
succeeds but batch embedding yields zero usable vectors, the storage step is
skipped, and the returned `CompleteProcessingResult` is still marked
successful (`success = true`) with an empty embeddings list. -/
theorem C1_amended (fileName : String) (fileSize : Nat) (env : ProcEnv)
    (pr : ProcessingResult) (ber : BatchEmbeddingResult)
    (hinit : env.init = .ok ()) (hex : env.extract = .ok pr)
    (hs : pr.success = true) (heb : env.embedBatch = .ok ber)
    (hres : ber.results = []) :
    (processDocument fileName fileSize env).storeInvoked = false ∧
    (processDocument fileName fileSize env).result = .ok
      { metadata := pr.metadata, chunks := pr.chunks, embeddings := [],
        success := true, error := none, processingTimeMs := 0 } := by
  unfold processDocument
  rw [hinit, hex, heb]
  simp [hs, hres]

theorem C1_amended_witness :
    (processDocument "f.txt" 3 envZeroVectors).storeInvoked = false ∧
    (processDocument "f.txt" 3 envZeroVectors).result = .ok
      { metadata := sampleMetadata, chunks := [sampleChunk "c1" "bad"],
        embeddings := [], success := true, error := none, processingTimeMs := 0 } :=
  C1_amended "f.txt" 3 envZeroVectors
    { success := true, metadata := sampleMetadata,
      chunks := [sampleChunk "c1" "bad"], error := none }
    { results := [], totalProcessingTimeMs := 0, successCount := 0,
      errors := [⟨"c1", "boom"⟩] }
    rfl rfl rfl rfl rfl

/-! ### Orchestrator: exception propagation (C2) -/

/-- Claim C2 counterexample: with initialization succeeding but the query
embedding failing, `search` propagates a (wrapped) exception instead of
returning a structured result, contradicting the claim that `search` never
throws. -/
theorem C2_counterexample :
    isOk (searchFn envEmbedThrows "hello" emptySearchOptions).result = false := by
  rfl

/-- Claim C2 (amended): once initialization succeeds, `processDocument`
never propagates an exception — every extraction, embedding, or storage
behaviour yields a structured `CompleteProcessingResult` — whereas `search`
returns a structured result exactly when the query is blank or both the
query embedding and the vector search succeed; in every other case (and
whenever initialization fails) an exception propagates to the caller. -/
theorem C2_amended :
    (∀ (fileName : String) (fileSize : Nat) (env : ProcEnv),
      env.init = .ok () →
        isOk (processDocument fileName fileSize env).result = true) ∧
    (∀ (env : SearchEnv) (query : String) (options : SearchOptions),
      env.init = .ok () →
        (isOk (searchFn env query options).result = true ↔
          (jsTrim query = "" ∨
            (∃ emb, env.embedQuery = .ok emb ∧
              isOk (env.storeSearch emb.embedding
                (orchestratorStoreOptions options)) = true)))) := by
  constructor
  · intro fileName fileSize env hinit
    unfold processDocument
    rw [hinit]
    cases hex : env.extract with
    | error e => rfl
    | ok pr =>
      by_cases hs : pr.success
      · simp only [hs, if_true]
        cases heb : env.embedBatch with
        | error e => rfl
        | ok ber =>
          by_cases hl : ber.results.length > 0
          · simp only [hl, if_true]
            cases hst : env.store with
            | error e => rfl
            | ok u => rfl
          · simp only [hl, if_false]
            rfl
      · simp only [hs, if_false]
        rfl
  · intro env query options hinit
    unfold searchFn
    rw [hinit]
    by_cases hq : jsTrim query = ""
    · simp [hq, isOk]
    · simp only [hq, if_false]
      cases hemb : env.embedQuery with
      | error e => simp [hq, hemb, isOk]
      | ok emb =>
        cases hst : env.storeSearch emb.embedding (orchestratorStoreOptions options) with
        | error e => simp [hq, hemb, hst, isOk]
        | ok rs => simp [hq, hemb, hst, isOk]

theorem C2_amended_witness :
    isOk (processDocument "f.txt" 3 envZeroVectors).result = true ∧
    (isOk (searchFn envSearchOk "hello" emptySearchOptions).result = true ↔
      (jsTrim "hello" = "" ∨
        (∃ emb, envSearchOk.embedQuery = .ok emb ∧
          isOk (envSearchOk.storeSearch emb.embedding
            (orchestratorStoreOptions emptySearchOptions)) = true))) :=
  ⟨C2_amended.1 "f.txt" 3 envZeroVectors rfl,
   C2_amended.2 envSearchOk "hello" emptySearchOptions rfl⟩

/-! ### Batch embedding: per-chunk failure accounting (C3) -/

/-- A chunk's embedding call succeeds (the backend behaviour `pf` is a pure
function, so success is determined by the chunk alone). -/
def embedOk (pf : String → Except String (List ℚ)) (c : DocumentChunk) : Bool :=
  isOk (embedOutcome pf c)

def okPart (pf : String → Except String (List ℚ)) (c : DocumentChunk) :
    Option EmbeddingResult :=
  match embedOutcome pf c with
  | .ok r => some r
  | .error _ => none

def errPart (pf : String → Except String (List ℚ)) (c : DocumentChunk) :
    Option ChunkError :=
  match embedOutcome pf c with
  | .ok _ => none
  | .error e => some ⟨c.id, e⟩

theorem processGroup_spec (pf : String → Except String (List ℚ))
    (group : List DocumentChunk) (acc : List EmbeddingResult × List ChunkError) :
    processGroup pf group acc =
      (acc.1 ++ group.filterMap (okPart pf), acc.2 ++ group.filterMap (errPart pf)) := by
  induction group generalizing acc with
  | nil => simp [processGroup]
  | cons c cs ih =>
    unfold processGroup at ih ⊢
    rw [List.foldl_cons]
    cases h : embedOutcome pf c with
    | ok r =>
      rw [ih]
      simp [List.filterMap_cons, okPart, errPart, h]
    | error e =>
      rw [ih]
      simp [List.filterMap_cons, okPart, errPart, h]

theorem batchLoop_spec (pf : String → Except String (List ℚ)) :
    ∀ (fuel : Nat) (cs : List DocumentChunk), cs.length ≤ fuel →
      batchLoop pf fuel cs = (cs.filterMap (okPart pf), cs.filterMap (errPart pf)) := by
  intro fuel
  induction fuel with
  | zero =>
    intro cs h
    have : cs = [] := List.eq_nil_of_length_eq_zero (Nat.le_zero.mp h)
    rw [this]
    rfl
  | succ n ih =>
    intro cs h
    match cs with
    | [] => rfl
    | c :: rest =>
      have hdrop : ((c :: rest).drop EMBEDDING_CONFIG.batchSize).length ≤ n := by
        rw [List.length_drop]
        have h5 : EMBEDDING_CONFIG.batchSize = 5 := rfl
        have : (c :: rest).length = rest.length + 1 := List.length_cons c rest
        omega
      rw [batchLoop, processGroup_spec, ih _ hdrop]
      have htd : (c :: rest).take EMBEDDING_CONFIG.batchSize ++
          (c :: rest).drop EMBEDDING_CONFIG.batchSize = c :: rest :=
        List.take_append_drop _ _
      simp only [List.nil_append]
      rw [← List.filterMap_append, ← List.filterMap_append, htd]

theorem okPart_chunkId (pf : String → Except String (List ℚ)) (c : DocumentChunk)
    (r : EmbeddingResult) (h : okPart pf c = some r) : r.chunkId = c.id := by
  unfold okPart embedOutcome at h
  simp only [generateEmbedding] at h
  cases hpf : pf (truncateText c.text) with
  | ok data => rw [hpf] at h; simp at h; rw [← h]
  | error e => rw [hpf] at h; simp at h

theorem results_ids (pf : String → Except String (List ℚ)) (chunks : List DocumentChunk) :
    (chunks.filterMap (okPart pf)).map (fun r => r.chunkId) =
      (chunks.filter (fun c => embedOk pf c)).map (fun c => c.id) := by
  induction chunks with
  | nil => rfl
  | cons c cs ih =>
    rw [List.filterMap_cons, List.filter_cons]
    cases h : embedOutcome pf c with
    | ok r =>
      have hok : okPart pf c = some r := by unfold okPart; rw [h]
      have hb : embedOk pf c = true := by unfold embedOk isOk; rw [h]
      rw [hok, hb]
      simp only [if_true, List.map_cons, ih]
      rw [okPart_chunkId pf c r hok]
    | error e =>
      have hok : okPart pf c = none := by unfold okPart; rw [h]
      have hb : embedOk pf c = false := by unfold embedOk isOk; rw [h]
      rw [hok, hb]
      simp [ih]

theorem errors_ids (pf : String → Except String (List ℚ)) (chunks : List DocumentChunk) :
    (chunks.filterMap (errPart pf)).map (fun e => e.chunkId) =
      (chunks.filter (fun c => ! embedOk pf c)).map (fun c => c.id) := by
  induction chunks with
  | nil => rfl
  | cons c cs ih =>
    rw [List.filterMap_cons, List.filter_cons]
    cases h : embedOutcome pf c with
    | ok r =>
      have hok : errPart pf c = none := by unfold errPart; rw [h]
      have hb : embedOk pf c = true := by unfold embedOk isOk; rw [h]
      rw [hok, hb]
      simp [ih]
    | error e =>
      have hok : errPart pf c = some ⟨c.id, e⟩ := by unfold errPart; rw [h]
      have hb : embedOk pf c = false := by unfold embedOk isOk; rw [h]
      rw [hok, hb]
      simp [ih]

theorem countP_and_split {α : Type} (p q : α → Bool) (l : List α) :
    l.countP (fun a => p a && q a) + l.countP (fun a => p a && !q a) = l.countP p := by
  induction l with
  | nil => rfl
  | cons a as ih =>
    simp only [List.countP_cons]
    cases hp : p a <;> cases hq : q a <;> simp <;> omega

/-- Claim C3: over every chunk list with pairwise-distinct ids and every
embedding-backend behaviour, `generateBatchEmbeddings` returns
`successCount = N - K` and `K` errors, where `K` is the number of chunks
whose embedding call fails; every chunk id appears exactly once across
results and errors, and no failed chunk id appears among the results. -/
theorem C3_batch (pf : String → Except String (List ℚ)) (chunks : List DocumentChunk)
    (hnd : (chunks.map (fun c => c.id)).Nodup) :
    (generateBatchEmbeddings pf chunks).successCount =
      chunks.length - (chunks.filter (fun c => ! embedOk pf c)).length ∧
    (generateBatchEmbeddings pf chunks).errors.length =
      (chunks.filter (fun c => ! embedOk pf c)).length ∧
    (∀ cid ∈ chunks.map (fun c => c.id),
      (((generateBatchEmbeddings pf chunks).results.map (fun r => r.chunkId)) ++
        ((generateBatchEmbeddings pf chunks).errors.map (fun e => e.chunkId))).count cid
        = 1) ∧
    (∀ er ∈ (generateBatchEmbeddings pf chunks).errors,
      er.chunkId ∉ (generateBatchEmbeddings pf chunks).results.map
        (fun r => r.chunkId)) := by
  have hbl : batchLoop pf chunks.length chunks =
      (chunks.filterMap (okPart pf), chunks.filterMap (errPart pf)) :=
    batchLoop_spec pf chunks.length chunks (le_refl _)
  have hres : (generateBatchEmbeddings pf chunks).results =
      chunks.filterMap (okPart pf) := by
    unfold generateBatchEmbeddings
    rw [hbl]
  have herr : (generateBatchEmbeddings pf chunks).errors =
      chunks.filterMap (errPart pf) := by
    unfold generateBatchEmbeddings
    rw [hbl]
  have hsc : (generateBatchEmbeddings pf chunks).successCount =
      (chunks.filterMap (okPart pf)).length := by
    unfold generateBatchEmbeddings
    rw [hbl]
  have hreslen : (chunks.filterMap (okPart pf)).length =
      (chunks.filter (fun c => embedOk pf c)).length := by
    have := congrArg List.length (results_ids pf chunks)
    simpa using this
  have herrlen : (chunks.filterMap (errPart pf)).length =
      (chunks.filter (fun c => ! embedOk pf c)).length := by
    have := congrArg List.length (errors_ids pf chunks)
    simpa using this
  have hsplit : chunks.length = (chunks.filter (fun c => embedOk pf c)).length +
      (chunks.filter (fun c => ! embedOk pf c)).length :=
    List.length_eq_length_filter_add (fun c => embedOk pf c)
  refine ⟨?_, ?_, ?_, ?_⟩
  · rw [hsc, hreslen]
    omega
  · rw [herr, herrlen]
  · intro cid hcid
    rw [hres, herr, List.count_append, results_ids, errors_ids]
    have hcount : ∀ (p : DocumentChunk → Bool),
        ((chunks.filter p).map (fun c => c.id)).count cid =
          chunks.countP (fun c => (fun x : String => x == cid) c.id && p c) := by
      intro p
      rw [List.count, List.countP_map, List.countP_filter]
      rfl
    rw [hcount (fun c => embedOk pf c), hcount (fun c => ! embedOk pf c)]
    have hone : (chunks.map (fun c => c.id)).count cid = 1 :=
      List.count_eq_one_of_mem hnd hcid
    rw [List.count, List.countP_map] at hone
    calc chunks.countP (fun c => c.id == cid && embedOk pf c) +
          chunks.countP (fun c => c.id == cid && !embedOk pf c)
        = chunks.countP (fun c => c.id == cid) :=
          countP_and_split (fun c => c.id == cid) (fun c => embedOk pf c) chunks
      _ = 1 := hone
  · intro er hmem hin
    rw [herr] at hmem
    rw [hres, results_ids] at hin
    rcases List.mem_filterMap.mp hmem with ⟨c, hc, hpart⟩
    have hcid : er.chunkId = c.id := by
      unfold errPart at hpart
      cases h : embedOutcome pf c with
      | ok r => rw [h] at hpart; simp at hpart
      | error e =>
        rw [h] at hpart
        have hpart' : some ({ chunkId := c.id, error := e } : ChunkError) = some er := hpart
        injection hpart' with h2
        rw [← h2]
    have hcfail : embedOk pf c = false := by
      unfold errPart at hpart
      unfold embedOk isOk
      cases h : embedOutcome pf c with
      | ok r => rw [h] at hpart; simp at hpart
      | error e => rfl
    rcases List.mem_map.mp hin with ⟨c', hc', hcid'⟩
    have hc'mem : c' ∈ chunks := List.mem_of_mem_filter hc'
    have hc'ok : embedOk pf c' = true := List.of_mem_filter hc'
    have heq : c' = c :=
      List.inj_on_of_nodup_map hnd hc'mem hc (by rw [hcid', hcid])
    rw [heq] at hc'ok
    rw [hc'ok] at hcfail
    exact absurd hcfail (by simp)

theorem C3_batch_witness :
    (generateBatchEmbeddings samplePipeline c3chunks).successCount =
      c3chunks.length - (c3chunks.filter (fun c => ! embedOk samplePipeline c)).length ∧
    (generateBatchEmbeddings samplePipeline c3chunks).errors.length =
      (c3chunks.filter (fun c => ! embedOk samplePipeline c)).length ∧
    (∀ cid ∈ c3chunks.map (fun c => c.id),
      (((generateBatchEmbeddings samplePipeline c3chunks).results.map
          (fun r => r.chunkId)) ++
        ((generateBatchEmbeddings samplePipeline c3chunks).errors.map
          (fun e => e.chunkId))).count cid = 1) ∧
    (∀ er ∈ (generateBatchEmbeddings samplePipeline c3chunks).errors,
      er.chunkId ∉ (generateBatchEmbeddings samplePipeline c3chunks).results.map
        (fun r => r.chunkId)) :=
  C3_batch samplePipeline c3chunks (by decide)

/-! ### Orchestrator: blank query short-circuit (C8) -/

/-- Claim C8: for every query that is empty or whitespace-only, `search`
returns the empty result list without invoking the embedding backend or the
vector store's search operation. -/
theorem C8_blank_query (env : SearchEnv) (query : String) (options : SearchOptions)
    (hinit : env.init = .ok ()) (hq : jsTrim query = "") :
    (searchFn env query options).result = .ok [] ∧
    (searchFn env query options).embedInvoked = false ∧
    (searchFn env query options).storeSearchInvoked = false := by
  unfold searchFn
  rw [hinit]
  simp [hq]

theorem C8_blank_query_witness :
    (searchFn envSearchOk "   " emptySearchOptions).result = .ok [] ∧
    (searchFn envSearchOk "   " emptySearchOptions).embedInvoked = false ∧
    (searchFn envSearchOk "   " emptySearchOptions).storeSearchInvoked = false :=
  C8_blank_query envSearchOk "   " emptySearchOptions rfl (by decide)

/-! ### Orchestrator: falsy option coalescing (C10) -/

/-- Claim C10: the orchestrator's `search` treats explicitly supplied falsy
option values as unset — `limit = 0` turns into a store query with limit 10
and `minScore = 0` into one with minScore 0.3 — so no caller can obtain an
unfiltered (`minScore = 0`) or zero-limit store query through the
orchestrator, even though the VectorStore-level default for `minScore`
is 0. -/
theorem C10_falsy_options :
    (∀ (env : SearchEnv) (query : String) (options : SearchOptions),
      env.init = .ok () → jsTrim query ≠ "" → isOk env.embedQuery = true →
        (searchFn env query options).storeCalledWith =
          some (orchestratorStoreOptions options)) ∧
    (∀ options : SearchOptions, options.limit = some 0 →
      (orchestratorStoreOptions options).limit = 10) ∧
    (∀ options : SearchOptions, options.minScore = some 0 →
      (orchestratorStoreOptions options).minScore = 0.3) ∧
    (∀ options : SearchOptions,
      (orchestratorStoreOptions options).limit ≠ 0 ∧
      (orchestratorStoreOptions options).minScore ≠ 0) ∧
    vectorStoreEffMinScore none = 0 := by
  refine ⟨?_, ?_, ?_, ?_, rfl⟩
  · intro env query options hinit hq hemb
    unfold searchFn
    rw [hinit]
    simp only [hq, if_false]
    cases hembq : env.embedQuery with
    | error e => rw [hembq] at hemb; simp [isOk] at hemb
    | ok emb =>
      cases hst : env.storeSearch emb.embedding (orchestratorStoreOptions options) with
      | error e => simp [hq, hst]
      | ok rs => simp [hq, hst]
  · intro options hl
    unfold orchestratorStoreOptions jsOrInt
    rw [hl]
    simp
  · intro options hm
    unfold orchestratorStoreOptions jsOrRat
    rw [hm]
    simp
  · intro options
    constructor
    · unfold orchestratorStoreOptions jsOrInt
      cases hl : options.limit with
      | none => simp
      | some x =>
        by_cases hx : x = 0
        · simp [hx]
        · simp [hx]
    · unfold orchestratorStoreOptions jsOrRat
      cases hm : options.minScore with
      | none => norm_num
      | some x =>
        by_cases hx : x = 0
        · simp [hx]; norm_num
        · simp [hx]

/-! ### Vector storage: join and failure condition (C7) -/

theorem embeddingMapGet_isSome (embeddings : List EmbeddingResult) (cid : String) :
    (embeddingMapGet embeddings cid).isSome =
      embeddings.any (fun e => e.chunkId == cid) := by
  rw [Bool.eq_iff_iff]
  unfold embeddingMapGet
  rw [Option.isSome_map', List.getLast?_isSome]
  simp [List.filter_eq_nil_iff, List.any_eq_true]

theorem buildVectorRecords_chunkIds (chunks : List DocumentChunk)
    (embeddings : List EmbeddingResult) (documentMetadata : DocumentMetadata) :
    (buildVectorRecords chunks embeddings documentMetadata).map (fun r => r.chunkId) =
      (chunks.filter (fun c => embeddings.any (fun e => e.chunkId == c.id))).map
        (fun c => c.id) := by
  unfold buildVectorRecords
  rw [List.map_map]
  have hcongr : chunks.filter (fun c => (embeddingMapGet embeddings c.id).isSome) =
      chunks.filter (fun c => embeddings.any (fun e => e.chunkId == c.id)) :=
    List.filter_congr (fun c _ => embeddingMapGet_isSome embeddings c.id)
  rw [hcongr]
  generalize (chunks.filter (fun c => embeddings.any (fun e => e.chunkId == c.id))) = l
  have : ((fun r : VectorRecord => r.chunkId) ∘
      (fun p : Nat × DocumentChunk =>
        ({ id := generateId p.1
           documentId := p.2.documentId
           chunkId := p.2.id
           chunkIndex := p.2.chunkIndex
           text := p.2.text
           vector := (embeddingMapGet embeddings p.2.id).getD []
           metadata := { documentFilename := documentMetadata.filename
                         documentType := documentMetadata.fileType
                         wordCount := p.2.wordCount
                         startPosition := p.2.startPosition
                         endPosition := p.2.endPosition
                         createdAt := "" } } : VectorRecord))) =
      (fun c : DocumentChunk => c.id) ∘ Prod.snd := rfl
  rw [this, ← List.map_map, List.enum_map_snd]

/-- Claim C7: `storeEmbeddings` builds exactly one `VectorRecord` for each
chunk whose id has a matching embedding (chunks without a matching embedding
are silently dropped, and embeddings without a matching chunk contribute
nothing), and it fails if and only if zero records would be inserted or the
bulk insert itself fails. -/
theorem C7_storeEmbeddings (add : List VectorRecord → Except String Unit)
    (chunks : List DocumentChunk) (embeddings : List EmbeddingResult)
    (documentMetadata : DocumentMetadata) :
    (storeEmbeddings add chunks embeddings documentMetadata).records.map
        (fun r => r.chunkId) =
      (chunks.filter (fun c => embeddings.any (fun e => e.chunkId == c.id))).map
        (fun c => c.id) ∧
    (isOk (storeEmbeddings add chunks embeddings documentMetadata).result = false ↔
      ((storeEmbeddings add chunks embeddings documentMetadata).records = [] ∨
        isOk (add (storeEmbeddings add chunks embeddings documentMetadata).records) =
          false)) ∧
    ((storeEmbeddings add chunks embeddings documentMetadata).addInvoked = true ↔
      (storeEmbeddings add chunks embeddings documentMetadata).records ≠ []) := by
  have hrec : (storeEmbeddings add chunks embeddings documentMetadata).records =
      buildVectorRecords chunks embeddings documentMetadata := by
    unfold storeEmbeddings
    by_cases h : (buildVectorRecords chunks embeddings documentMetadata).length = 0
    · simp [h]
    · simp only [h, if_false]
      cases hadd : add (buildVectorRecords chunks embeddings documentMetadata) with
      | ok u => rfl
      | error e => rfl
  refine ⟨?_, ?_, ?_⟩
  · rw [hrec]
    exact buildVectorRecords_chunkIds chunks embeddings documentMetadata
  · rw [hrec]
    unfold storeEmbeddings
    by_cases h : (buildVectorRecords chunks embeddings documentMetadata).length = 0
    · have hnil : buildVectorRecords chunks embeddings documentMetadata = [] :=
        List.eq_nil_of_length_eq_zero h
      simp [h, hnil, isOk]
    · have hne : buildVectorRecords chunks embeddings documentMetadata ≠ [] := by
        intro hh
        exact h (by rw [hh]; rfl)
      simp only [h, if_false]
      cases hadd : add (buildVectorRecords chunks embeddings documentMetadata) with
      | ok u => simp [isOk, hne, hadd]
      | error e => simp [isOk, hne, hadd]
  · rw [hrec]
    unfold storeEmbeddings
    by_cases h : (buildVectorRecords chunks embeddings documentMetadata).length = 0
    · have hnil : buildVectorRecords chunks embeddings documentMetadata = [] :=
        List.eq_nil_of_length_eq_zero h
      simp [h, hnil]
    · have hne : buildVectorRecords chunks embeddings documentMetadata ≠ [] := by
        intro hh
        exact h (by rw [hh]; rfl)
      simp only [h, if_false]
      cases hadd : add (buildVectorRecords chunks embeddings documentMetadata) with
      | ok u => simp [hne]
      | error e => simp [hne]

theorem C10_witness :
    (searchFn envSearchOk "hello" zeroOptions).storeCalledWith =
      some (orchestratorStoreOptions zeroOptions) ∧
    (orchestratorStoreOptions zeroOptions).limit = 10 ∧
    (orchestratorStoreOptions zeroOptions).minScore = 0.3 :=
  ⟨C10_falsy_options.1 envSearchOk "hello" zeroOptions rfl (by decide) rfl,
   C10_falsy_options.2.1 zeroOptions rfl,
   C10_falsy_options.2.2.1 zeroOptions rfl⟩

/-! ### Word-scanner structure lemmas

These compute `splitIntoWords` on texts built from repeated
word-plus-separator blocks, so that properties of large inputs can be
established without deep kernel evaluation. -/

theorem splitWordsAux_word (u : List Char) (hu : ∀ c ∈ u, isWordChar c = true)
    (rest : List Char) (s : Nat) :
    ∀ (i : Nat) (acc : List Char),
      splitWordsAux (u ++ ' ' :: rest) i (some (s, acc)) =
        ⟨String.mk (acc.reverse ++ u), s⟩ ::
          splitWordsAux rest (i + (u.length + 1)) none := by
  induction u with
  | nil =>
    intro i acc
    simp only [List.nil_append, splitWordsAux]
    rw [if_neg (by decide : ¬ isWordChar ' ' = true)]
    simp
  | cons c u' ih =>
    intro i acc
    have hc : isWordChar c = true := hu c (List.mem_cons_self _ _)
    have hu' : ∀ x ∈ u', isWordChar x = true := fun x hx => hu x (List.mem_cons_of_mem _ hx)
    have hsplit : (c :: u') ++ ' ' :: rest = c :: (u' ++ ' ' :: rest) := rfl
    rw [hsplit]
    simp only [splitWordsAux, hc, if_true]
    rw [ih hu' (i + 1) (c :: acc)]
    congr 2
    · simp
    · simp only [List.length_cons]
      omega

theorem splitWordsAux_block (u : List Char) (hne : u ≠ [])
    (hu : ∀ c ∈ u, isWordChar c = true) (rest : List Char) (i : Nat) :
    splitWordsAux (u ++ ' ' :: rest) i none =
      ⟨String.mk u, i⟩ :: splitWordsAux rest (i + (u.length + 1)) none := by
  obtain ⟨c, u', rfl⟩ := List.exists_cons_of_ne_nil hne
  have hc : isWordChar c = true := hu c (List.mem_cons_self _ _)
  have hu' : ∀ x ∈ u', isWordChar x = true := fun x hx => hu x (List.mem_cons_of_mem _ hx)
  have hsplit : (c :: u') ++ ' ' :: rest = c :: (u' ++ ' ' :: rest) := rfl
  rw [hsplit]
  simp only [splitWordsAux, hc, if_true]
  rw [splitWordsAux_word u' hu' rest i (i + 1) [c]]
  congr 2
  simp only [List.length_cons]
  omega

theorem splitWordsAux_rep (u : List Char) (hne : u ≠ [])
    (hu : ∀ c ∈ u, isWordChar c = true) :
    ∀ (n : Nat) (rest : List Char) (i : Nat),
      splitWordsAux ((List.replicate n (u ++ [' '])).flatten ++ rest) i none =
        (List.range n).map (fun j => ⟨String.mk u, i + j * (u.length + 1)⟩) ++
          splitWordsAux rest (i + n * (u.length + 1)) none := by
  intro n
  induction n with
  | zero => intro rest i; simp
  | succ m ih =>
    intro rest i
    rw [List.replicate_succ, List.flatten_cons, List.append_assoc, List.append_assoc,
      List.singleton_append, splitWordsAux_block u hne hu, ih, List.range_succ_eq_map]
    simp only [List.map_cons, List.map_map, List.cons_append]
    congr 2
    · simp
    · apply List.map_congr_left
      intro j hj
      simp only [Function.comp_apply, Nat.succ_eq_add_one]
      congr 1
      ring
    · congr 1
      ring

theorem splitWordsAux_single (c : Char) (hc : isWordChar c = true) (i : Nat) :
    splitWordsAux [c] i none = [⟨String.mk [c], i⟩] := by
  simp [splitWordsAux, hc]

theorem bigText_word_count : (splitIntoWords bigText).length = 1200 := by
  show (splitWordsAux bigChars 0 none).length = 1200
  unfold bigChars
  rw [← List.append_nil ((List.replicate 1200 (['a', 'b'] ++ [' '])).flatten),
    splitWordsAux_rep ['a', 'b'] (by decide) (by decide) 1200 [] 0]
  simp [splitWordsAux]

/-! ### `chunkLoop` structure lemmas -/

theorem chunkLoop_succ_cons (t d : String) (w : List WordPos) (fuel cur idx : Nat)
    (h2 : cur + CHUNKING_CONFIG.maxWordsPerChunk < w.length) :
    chunkLoop t d w (fuel + 1) cur idx =
      { id := generateId idx
        documentId := d
        chunkIndex := idx
        text := extractTextBetweenPositions t (getCharacterPosition w cur)
          (getCharacterPosition w (cur + CHUNKING_CONFIG.maxWordsPerChunk))
        wordCount := CHUNKING_CONFIG.maxWordsPerChunk
        startPosition := getCharacterPosition w cur
        endPosition :=
          getCharacterPosition w (cur + CHUNKING_CONFIG.maxWordsPerChunk) } ::
      chunkLoop t d w fuel
        (cur + max (CHUNKING_CONFIG.maxWordsPerChunk - CHUNKING_CONFIG.overlapWords) 1)
        (idx + 1) := by
  have hmin : min (cur + CHUNKING_CONFIG.maxWordsPerChunk) w.length =
      cur + CHUNKING_CONFIG.maxWordsPerChunk := by omega
  simp only [chunkLoop]
  rw [if_pos (by omega : cur < w.length), hmin,
    if_neg (by omega : ¬ cur + CHUNKING_CONFIG.maxWordsPerChunk ≥ w.length),
    Nat.add_sub_cancel_left]

theorem chunkLoop_succ_last (t d : String) (w : List WordPos) (fuel cur idx : Nat)
    (h1 : cur < w.length) (h2 : w.length ≤ cur + CHUNKING_CONFIG.maxWordsPerChunk) :
    chunkLoop t d w (fuel + 1) cur idx =
      [{ id := generateId idx
         documentId := d
         chunkIndex := idx
         text := extractTextBetweenPositions t (getCharacterPosition w cur)
           (getCharacterPosition w w.length)
         wordCount := w.length - cur
         startPosition := getCharacterPosition w cur
         endPosition := getCharacterPosition w w.length }] := by
  have hmin : min (cur + CHUNKING_CONFIG.maxWordsPerChunk) w.length = w.length := by
    omega
  simp only [chunkLoop]
  rw [if_pos h1, hmin, if_pos (le_refl w.length)]

theorem chunkLoop_map_chunkIndex (t d : String) (w : List WordPos) :
    ∀ (fuel cur idx : Nat),
      (chunkLoop t d w fuel cur idx).map (fun c => c.chunkIndex) =
        List.range' idx (chunkLoop t d w fuel cur idx).length := by
  intro fuel
  induction fuel with
  | zero => intro cur idx; rfl
  | succ n ih =>
    intro cur idx
    simp only [chunkLoop]
    by_cases h1 : cur < w.length
    · rw [if_pos h1]
      by_cases h2 : min (cur + CHUNKING_CONFIG.maxWordsPerChunk) w.length ≥ w.length
      · rw [if_pos h2]
        simp [List.range'_one]
      · rw [if_neg h2]
        rw [List.map_cons, ih, List.length_cons, List.range'_succ]
    · rw [if_neg h1]
      rfl

theorem chunkLoop_dropLast_wordCount (t d : String) (w : List WordPos) :
    ∀ (fuel cur idx : Nat), ∀ c ∈ (chunkLoop t d w fuel cur idx).dropLast,
      c.wordCount = CHUNKING_CONFIG.maxWordsPerChunk := by
  intro fuel
  induction fuel with
  | zero => intro cur idx c hc; simp [chunkLoop] at hc
  | succ n ih =>
    intro cur idx c hc
    simp only [chunkLoop] at hc
    by_cases h1 : cur < w.length
    · rw [if_pos h1] at hc
      by_cases h2 : min (cur + CHUNKING_CONFIG.maxWordsPerChunk) w.length ≥ w.length
      · rw [if_pos h2] at hc
        simp at hc
      · rw [if_neg h2] at hc
        cases hr : chunkLoop t d w n
            (cur + max (CHUNKING_CONFIG.maxWordsPerChunk - CHUNKING_CONFIG.overlapWords) 1)
            (idx + 1) with
        | nil => rw [hr] at hc; simp at hc
        | cons r rs =>
          rw [hr, List.dropLast_cons₂] at hc
          rcases List.mem_cons.mp hc with h3 | h3
          · rw [h3]
            show min (cur + CHUNKING_CONFIG.maxWordsPerChunk) w.length - cur =
              CHUNKING_CONFIG.maxWordsPerChunk
            omega
          · rw [← hr] at h3
            exact ih _ _ c h3
    · rw [if_neg h1] at hc
      simp at hc

/-- Claim C4: for every text with at least `minChunkWords` words, the chunk
indices are exactly `0..N-1` in order with no gaps, and every chunk except
possibly the last has `wordCount ≥ minChunkWords`; in particular every
1,200-word text with the default configuration yields exactly 3 chunks with
indices 0, 1, 2. -/
theorem C4_chunk_indices (text documentId : String)
    (h : CHUNKING_CONFIG.minChunkWords ≤ (splitIntoWords text).length) :
    ((chunkText text documentId).map (fun c => c.chunkIndex) =
      List.range (chunkText text documentId).length) ∧
    (∀ c ∈ (chunkText text documentId).dropLast,
      CHUNKING_CONFIG.minChunkWords ≤ c.wordCount) ∧
    ((splitIntoWords text).length = 1200 →
      (chunkText text documentId).length = 3 ∧
      (chunkText text documentId).map (fun c => c.chunkIndex) = [0, 1, 2]) := by
  have hTdef : chunkText text documentId =
      if (splitIntoWords text).length ≤ CHUNKING_CONFIG.minChunkWords then
        [{ id := generateId 0, documentId := documentId, chunkIndex := 0,
           text := jsTrim text, wordCount := (splitIntoWords text).length,
           startPosition := 0, endPosition := text.length }]
      else
        chunkLoop text documentId (splitIntoWords text) (splitIntoWords text).length 0 0 :=
    rfl
  have hmapgen : (chunkText text documentId).map (fun c => c.chunkIndex) =
      List.range (chunkText text documentId).length := by
    by_cases hshort : (splitIntoWords text).length ≤ CHUNKING_CONFIG.minChunkWords
    · rw [hTdef, if_pos hshort]
      rfl
    · rw [hTdef, if_neg hshort, chunkLoop_map_chunkIndex, List.range_eq_range']
  refine ⟨hmapgen, ?_, ?_⟩
  · by_cases hshort : (splitIntoWords text).length ≤ CHUNKING_CONFIG.minChunkWords
    · rw [hTdef, if_pos hshort]
      intro c hc
      simp at hc
    · rw [hTdef, if_neg hshort]
      intro c hc
      rw [chunkLoop_dropLast_wordCount text documentId (splitIntoWords text) _ _ _ c hc]
      decide
  · intro h1200
    have hshort : ¬ (splitIntoWords text).length ≤ CHUNKING_CONFIG.minChunkWords := by
      rw [h1200]
      decide
    have hlen : (chunkText text documentId).length = 3 := by
      rw [hTdef, if_neg hshort, h1200]
      rw [(by norm_num : (1200 : Nat) = 1199 + 1),
        chunkLoop_succ_cons text documentId (splitIntoWords text) 1199 0 0
          (by rw [h1200]; decide)]
      rw [(by rfl :
        0 + max (CHUNKING_CONFIG.maxWordsPerChunk - CHUNKING_CONFIG.overlapWords) 1 = 450)]
      rw [(by norm_num : (1199 : Nat) = 1198 + 1),
        chunkLoop_succ_cons text documentId (splitIntoWords text) 1198 450 1
          (by rw [h1200]; decide)]
      rw [(by rfl :
        450 + max (CHUNKING_CONFIG.maxWordsPerChunk - CHUNKING_CONFIG.overlapWords) 1 = 900)]
      rw [(by norm_num : (1198 : Nat) = 1197 + 1),
        chunkLoop_succ_last text documentId (splitIntoWords text) 1197 900 2
          (by rw [h1200]; decide) (by rw [h1200]; decide)]
      rfl
    refine ⟨hlen, ?_⟩
    rw [hmapgen, hlen]
    rfl

theorem C4_chunk_indices_witness :
    (chunkText bigText "doc").length = 3 ∧
    (chunkText bigText "doc").map (fun c => c.chunkIndex) = [0, 1, 2] :=
  (C4_chunk_indices bigText "doc"
    (by rw [bigText_word_count]; decide)).2.2 bigText_word_count

/-! ### Chunk overlap (C6) -/

theorem overlapText_words :
    splitIntoWords overlapText =
      (List.range 450).map (fun j => ⟨String.mk ['a'], 0 + j * (['a'].length + 1)⟩) ++
        ((List.range 50).map (fun j =>
            ⟨String.mk (List.replicate 20 'b'),
              0 + 450 * (['a'].length + 1) + j * ((List.replicate 20 'b').length + 1)⟩) ++
          [⟨String.mk ['c'],
            0 + 450 * (['a'].length + 1) + 50 * ((List.replicate 20 'b').length + 1)⟩]) := by
  show splitWordsAux overlapChars 0 none = _
  unfold overlapChars
  rw [splitWordsAux_rep ['a'] (by decide) (by decide) 450 _ 0,
    splitWordsAux_rep (List.replicate 20 'b') (by decide) (by decide) 50 ['c']
      (0 + 450 * (['a'].length + 1)),
    splitWordsAux_single 'c' (by decide)]

theorem overlap_words_length : (splitIntoWords overlapText).length = 501 := by
  rw [overlapText_words]
  simp

theorem overlap_pos_0 : getCharacterPosition (splitIntoWords overlapText) 0 = 0 := by
  unfold getCharacterPosition
  simp only [overlap_words_length]
  rw [if_neg (by decide)]
  rw [overlapText_words]
  rw [List.getD_eq_getElem?_getD, List.getElem?_append]
  simp

theorem overlap_pos_450 : getCharacterPosition (splitIntoWords overlapText) 450 = 900 := by
  unfold getCharacterPosition
  simp only [overlap_words_length]
  rw [if_neg (by decide)]
  rw [overlapText_words]
  rw [List.getD_eq_getElem?_getD, List.getElem?_append, List.getElem?_append]
  simp

theorem overlap_pos_500 : getCharacterPosition (splitIntoWords overlapText) 500 = 1950 := by
  unfold getCharacterPosition
  simp only [overlap_words_length]
  rw [if_neg (by decide)]
  rw [overlapText_words]
  rw [List.getD_eq_getElem?_getD, List.getElem?_append, List.getElem?_append]
  simp

theorem length_dropWhile_le {α : Type} (p : α → Bool) (l : List α) :
    (l.dropWhile p).length ≤ l.length := by
  induction l with
  | nil => simp
  | cons a as ih =>
    rw [List.dropWhile_cons]
    by_cases h : p a
    · simp only [h, if_true, List.length_cons]
      omega
    · simp [h]

theorem trimChars_length_le (l : List Char) : (trimChars l).length ≤ l.length := by
  unfold trimChars
  rw [List.length_reverse]
  calc ((l.dropWhile Char.isWhitespace).reverse.dropWhile Char.isWhitespace).length
      ≤ (l.dropWhile Char.isWhitespace).reverse.length := length_dropWhile_le _ _
    _ = (l.dropWhile Char.isWhitespace).length := List.length_reverse _
    _ ≤ l.length := length_dropWhile_le _ _

theorem extractText_length_le (text : String) (s e : Nat) :
    (extractTextBetweenPositions text s e).length ≤ e - s := by
  show (trimChars ((text.data.drop s).take (e - s))).length ≤ e - s
  calc (trimChars ((text.data.drop s).take (e - s))).length
      ≤ ((text.data.drop s).take (e - s)).length := trimChars_length_le _
    _ ≤ e - s := List.length_take_le _ _

set_option maxRecDepth 40000 in
/-- Claim C6 counterexample: on `overlapText` the two produced chunks overlap
by 1050 characters while chunk 0's text has at most 1950 characters, so the
overlap strictly exceeds 50% of chunk 0's text length. -/
theorem C6_counterexample :
    ((chunkText overlapText "doc").getD 1 default).startPosition <
      ((chunkText overlapText "doc").getD 0 default).endPosition ∧
    2 * (((chunkText overlapText "doc").getD 0 default).endPosition -
        ((chunkText overlapText "doc").getD 1 default).startPosition) >
      ((chunkText overlapText "doc").getD 0 default).text.length := by
  have hTdef : chunkText overlapText "doc" =
      if (splitIntoWords overlapText).length ≤ CHUNKING_CONFIG.minChunkWords then
        [{ id := generateId 0, documentId := "doc", chunkIndex := 0,
           text := jsTrim overlapText,
           wordCount := (splitIntoWords overlapText).length,
           startPosition := 0, endPosition := overlapText.length }]
      else
        chunkLoop overlapText "doc" (splitIntoWords overlapText)
          (splitIntoWords overlapText).length 0 0 :=
    rfl
  have hchunks : chunkText overlapText "doc" =
      { id := generateId 0
        documentId := "doc"
        chunkIndex := 0
        text := extractTextBetweenPositions overlapText
          (getCharacterPosition (splitIntoWords overlapText) 0)
          (getCharacterPosition (splitIntoWords overlapText)
            (0 + CHUNKING_CONFIG.maxWordsPerChunk))
        wordCount := CHUNKING_CONFIG.maxWordsPerChunk
        startPosition := getCharacterPosition (splitIntoWords overlapText) 0
        endPosition := getCharacterPosition (splitIntoWords overlapText)
          (0 + CHUNKING_CONFIG.maxWordsPerChunk) } ::
      [{ id := generateId 1
         documentId := "doc"
         chunkIndex := 1
         text := extractTextBetweenPositions overlapText
           (getCharacterPosition (splitIntoWords overlapText) 450)
           (getCharacterPosition (splitIntoWords overlapText)
             (splitIntoWords overlapText).length)
         wordCount := (splitIntoWords overlapText).length - 450
         startPosition := getCharacterPosition (splitIntoWords overlapText) 450
         endPosition := getCharacterPosition (splitIntoWords overlapText)
           (splitIntoWords overlapText).length }] := by
    rw [hTdef, if_neg (by rw [overlap_words_length]; decide), overlap_words_length,
      (by norm_num : (501 : Nat) = 500 + 1),
      chunkLoop_succ_cons overlapText "doc" (splitIntoWords overlapText) 500 0 0
        (by rw [overlap_words_length]; decide),
      (by rfl :
        0 + max (CHUNKING_CONFIG.maxWordsPerChunk - CHUNKING_CONFIG.overlapWords) 1 = 450),
      (by norm_num : (500 : Nat) = 499 + 1),
      chunkLoop_succ_last overlapText "doc" (splitIntoWords overlapText) 499 450 1
        (by rw [overlap_words_length]; decide)
        (by rw [overlap_words_length]; decide),
      overlap_words_length]
  have hp500 : getCharacterPosition (splitIntoWords overlapText)
      (0 + CHUNKING_CONFIG.maxWordsPerChunk) = 1950 := by
    rw [(by rfl : 0 + CHUNKING_CONFIG.maxWordsPerChunk = 500)]
    exact overlap_pos_500
  have htext : ((chunkText overlapText "doc").getD 0 default).text.length ≤ 1950 := by
    rw [hchunks]
    show (extractTextBetweenPositions overlapText
      (getCharacterPosition (splitIntoWords overlapText) 0)
      (getCharacterPosition (splitIntoWords overlapText)
        (0 + CHUNKING_CONFIG.maxWordsPerChunk))).length ≤ 1950
    calc (extractTextBetweenPositions overlapText
        (getCharacterPosition (splitIntoWords overlapText) 0)
        (getCharacterPosition (splitIntoWords overlapText)
          (0 + CHUNKING_CONFIG.maxWordsPerChunk))).length
        ≤ getCharacterPosition (splitIntoWords overlapText)
            (0 + CHUNKING_CONFIG.maxWordsPerChunk) -
          getCharacterPosition (splitIntoWords overlapText) 0 :=
          extractText_length_le _ _ _
      _ ≤ 1950 := by rw [hp500, overlap_pos_0]
  have hstart1 : ((chunkText overlapText "doc").getD 1 default).startPosition = 900 := by
    rw [hchunks, List.getD_cons_succ, List.getD_cons_zero]
    show getCharacterPosition (splitIntoWords overlapText) 450 = 900
    exact overlap_pos_450
  have hend0 : ((chunkText overlapText "doc").getD 0 default).endPosition = 1950 := by
    rw [hchunks, List.getD_cons_zero]
    show getCharacterPosition (splitIntoWords overlapText)
      (0 + CHUNKING_CONFIG.maxWordsPerChunk) = 1950
    exact hp500
  refine ⟨?_, ?_⟩
  · rw [hstart1, hend0]
    norm_num
  · rw [hstart1, hend0]
    omega

/-- Claim C6 (amended): chunk sequences accepted by the post-hoc validator
(`validateChunks` returns `isValid = true`) have the overlap property — the
character overlap between consecutive chunks never exceeds 50% of the earlier
chunk's text length; `chunkText` alone does not guarantee it (see the
counterexample). -/
theorem C6_amended (chunks : List DocumentChunk)
    (h : (validateChunks chunks).isValid = true) :
    ∀ i, i + 1 < chunks.length →
      (chunks.getD (i + 1) default).startPosition < (chunks.getD i default).endPosition →
      2 * ((chunks.getD i default).endPosition -
          (chunks.getD (i + 1) default).startPosition) ≤
        (chunks.getD i default).text.length := by
  intro i hi hover
  simp only [validateChunks] at h
  rw [beq_iff_eq, List.length_append, List.length_append, List.length_append] at h
  have h4 : ((List.range (chunks.length - 1)).filterMap (fun i =>
      if (chunks.getD i default).endPosition > (chunks.getD (i + 1) default).startPosition
      then
        if 2 * ((chunks.getD i default).endPosition -
            (chunks.getD (i + 1) default).startPosition) >
            (chunks.getD i default).text.length then
          some ("Excessive overlap between chunks " ++ toString i ++ " and " ++
            toString (i + 1) ++ ": " ++
            toString ((chunks.getD i default).endPosition -
              (chunks.getD (i + 1) default).startPosition) ++ " characters")
        else none
      else none)).length = 0 := by omega
  rw [List.length_eq_zero] at h4
  have hmem : i ∈ List.range (chunks.length - 1) := List.mem_range.mpr (by omega)
  have hnone := List.forall_none_of_filterMap_eq_nil h4 i hmem
  rw [if_pos hover] at hnone
  by_cases hc : 2 * ((chunks.getD i default).endPosition -
      (chunks.getD (i + 1) default).startPosition) >
      (chunks.getD i default).text.length
  · rw [if_pos hc] at hnone
    exact absurd hnone (by simp)
  · omega

theorem C6_amended_witness :
    2 * ((twoChunks.getD 0 default).endPosition -
        (twoChunks.getD 1 default).startPosition) ≤
      (twoChunks.getD 0 default).text.length :=
  C6_amended twoChunks (by decide) 0 (by decide) (by decide)

/-! ### Worker manager pending-request table (C9) -/

/-- The pending-table invariant: every tracked correlation id was allocated
by the counter (so it is positive and at most `messageId`), and the table has
no duplicate keys. -/
def wmInv (s : WMState) : Prop :=
  (∀ id ∈ s.pending, 1 ≤ id ∧ id ≤ s.messageId) ∧ s.pending.Nodup

theorem wmStep_inv (s : WMState) (e : WMEvent) (h : wmInv s) : wmInv (wmStep s e).1 := by
  obtain ⟨hbound, hnd⟩ := h
  cases e with
  | send =>
    have hstep : (wmStep s .send).1 =
        ⟨s.messageId + 1, (s.messageId + 1) :: s.pending⟩ := rfl
    rw [hstep]
    unfold wmInv
    dsimp only
    refine ⟨?_, ?_⟩
    · intro id hid
      rcases List.mem_cons.mp hid with h1 | h1
      · omega
      · have := hbound id h1
        omega
    · refine List.nodup_cons.mpr ⟨?_, hnd⟩
      intro hmem
      have := hbound _ hmem
      omega
  | timeoutFire id =>
    by_cases hid : id ∈ s.pending
    · simp only [wmStep, hid, if_true]
      refine ⟨?_, hnd.erase id⟩
      intro j hj
      exact hbound j (List.mem_of_mem_erase hj)
    · simp only [wmStep, hid, if_false]
      exact ⟨hbound, hnd⟩
  | workerError => exact ⟨by intro id hid; simp [wmStep] at hid, by simp [wmStep]⟩
  | terminate => exact ⟨by intro id hid; simp [wmStep] at hid, by simp [wmStep]⟩
  | response msg =>
    by_cases hp : msg.rtype = "PROGRESS"
    · simp only [wmStep, hp, if_true]
      exact ⟨hbound, hnd⟩
    · simp only [wmStep, hp, if_false]
      by_cases hst : msg.rtype = "STATUS" ∧ msg.id = none
      · simp only [hst, if_true]
        exact ⟨hbound, hnd⟩
      · simp only [hst, if_false]
        cases hid : msg.id with
        | none => exact ⟨hbound, hnd⟩
        | some mid =>
          cases mid with
          | zero => exact ⟨hbound, hnd⟩
          | succ k =>
            by_cases hmem : k + 1 ∈ s.pending
            · simp only [hmem, if_true]
              refine ⟨?_, hnd.erase _⟩
              intro j hj
              exact hbound j (List.mem_of_mem_erase hj)
            · simp only [hmem, if_false]
              exact ⟨hbound, hnd⟩

theorem wmReachable_inv (s : WMState) (h : WMReachable s) : wmInv s := by
  induction h with
  | start => exact ⟨by intro id hid; simp [initialWMState] at hid, by simp [initialWMState]⟩
  | step s' e _ ih => exact wmStep_inv s' e ih

/-- Claim C9: in every reachable state of the worker manager, an outgoing
request inserts exactly one entry keyed by its fresh correlation id; a
timeout evicts that entry and rejects the request with a timeout error; a
context-level failure rejects every pending request and leaves the table
empty; and a response carrying an unknown (or absent) correlation id is
discarded without changing the table or resolving any request. -/
theorem C9_pending_table (s : WMState) (hs : WMReachable s) :
    ((wmStep s .send).1.pending = (s.messageId + 1) :: s.pending ∧
      (s.messageId + 1) ∉ s.pending ∧
      (wmStep s .send).2 = []) ∧
    (∀ id ∈ s.pending,
      (wmStep s (.timeoutFire id)).1.pending = s.pending.erase id ∧
      id ∉ (wmStep s (.timeoutFire id)).1.pending ∧
      (wmStep s (.timeoutFire id)).2 = [.rejected id "Worker request timed out"]) ∧
    ((wmStep s .workerError).1.pending = [] ∧
      (wmStep s .workerError).2 =
        s.pending.map (fun id => .rejected id "Worker error")) ∧
    (∀ msg : WorkerResponseMsg, (∀ mid, msg.id = some mid → mid ∉ s.pending) →
      wmStep s (.response msg) = (s, [])) := by
  obtain ⟨hbound, hnd⟩ := wmReachable_inv s hs
  refine ⟨⟨rfl, ?_, rfl⟩, ?_, ⟨rfl, rfl⟩, ?_⟩
  · intro hmem
    have := hbound _ hmem
    omega
  · intro id hid
    refine ⟨?_, ?_, ?_⟩
    · simp [wmStep, hid]
    · simp only [wmStep, hid, if_true]
      intro hmem
      exact ((List.Nodup.mem_erase_iff hnd).mp hmem).1 rfl
    · simp [wmStep, hid]
  · intro msg hunknown
    by_cases hp : msg.rtype = "PROGRESS"
    · simp [wmStep, hp]
    · by_cases hst : msg.rtype = "STATUS" ∧ msg.id = none
      · simp [wmStep, hp, hst]
      · cases hid : msg.id with
        | none => simp [wmStep, hp, hst, hid]
        | some mid =>
          cases mid with
          | zero => simp [wmStep, hp, hst, hid]
          | succ k =>
            have hmem : k + 1 ∉ s.pending := hunknown (k + 1) hid
            simp [wmStep, hp, hst, hid, hmem]

theorem C9_pending_table_witness :
    (wmStep ⟨1, [1]⟩ (.timeoutFire 1)).1.pending = [] ∧
    (wmStep ⟨1, [1]⟩ (.timeoutFire 1)).2 = [.rejected 1 "Worker request timed out"] ∧
    wmStep ⟨1, [1]⟩ (.response ⟨"SINGLE_RESULT", some 2, ""⟩) = (⟨1, [1]⟩, []) := by
  have hreach : WMReachable ⟨1, [1]⟩ :=
    WMReachable.step initialWMState .send WMReachable.start
  have h := C9_pending_table ⟨1, [1]⟩ hreach
  have ht := h.2.1 1 (by decide)
  refine ⟨?_, ht.2.2, ?_⟩
  · rw [ht.1]
    rfl
  · exact h.2.2.2 ⟨"SINGLE_RESULT", some 2, ""⟩
      (by intro mid hmid; injection hmid with h2; subst h2; decide)

end KnowledgeSearch
